import Mathlib

/-!
Verification of the DeadByDaylight_Pack_Creator compositing core.

Shallow embedding of the Rust sources:
  * `src/helper.rs`            — `hex_to_rgb`, `colorize_grayscale_image` (threshold
                                 variant), `force_png_path`, `stack_layers`
  * `src/color_image_mask.rs`  — `colorize_grayscale_image` (no-alpha mask variant)
  * `src/main.rs`              — per-asset composition and the batch loop

Modelling conventions:
  * Rust `&str` values are modelled as lists of UTF-8 bytes (`Str := List Nat`);
    this is needed because `hex_to_rgb` slices its input at byte offsets 2 and 4,
    which panics in Rust when the offset is not a character boundary.
  * Machine integers (`u8`, `u16`) are modelled as `Nat` with an explicit `% 256`
    wherever the code performs an `as u8` cast.
  * An image (`image::DynamicImage` / `ImageBuffer`) is a width, a height and a
    total pixel function; only coordinates below the bounds are meaningful.
  * `image::imageops::overlay` at offset (0,0) blends the overlapping
    `min`-sized region pixel by pixel with `Rgba::blend`.  The crate computes
    the blend in `f32` and truncates back to `u8`; `blendPixel` below is the
    exact rational-arithmetic version of the same formula with the final
    truncation modelled as `Nat` floor division.  Concrete counterexamples in
    this file are chosen so that channel gaps are ≥ 60, far above any possible
    `f32` rounding discrepancy (< 1 per channel).
  * Fallible or effectful library calls (`image::open`) are passed in as
    oracle functions `Str → Option Image`.
  * A Rust panic is modelled as a distinguished outcome (`HexResult.panic`,
    a `none` result of `stack_layers`); it aborts the whole computation,
    mirroring an unwinding panic in the single-threaded binary.
-/

/-- UTF-8 byte string, the model of Rust `&str` / `String`. -/
abbrev Str := List Nat

/-- Byte list of an ASCII Lean string literal (every character below 0x80). -/
def strBytes (s : String) : Str := s.data.map Char.toNat

/-- Bytes of the sentinel literal `"none"` from the sources. -/
def noneStr : Str := strBytes "none"

/-- One RGBA pixel; channels are `u8` values modelled as `Nat`. -/
structure Pixel where
  r : Nat
  g : Nat
  b : Nat
  a : Nat
deriving DecidableEq

/-- An RGBA raster: the model of `image::DynamicImage` /
`ImageBuffer<Rgba<u8>, Vec<u8>>` (a `DynamicImage` exposes every pixel as
RGBA through `GenericImage`). -/
structure Image where
  width : Nat
  height : Nat
  pixel : Nat → Nat → Pixel

/-- A grayscale-with-alpha raster, the model of
`ImageBuffer<LumaA<u8>, Vec<u8>>`; a pixel is the pair (gray, alpha). -/
structure GrayAImage where
  width : Nat
  height : Nat
  pixel : Nat → Nat → Nat × Nat

/-- A grayscale raster without alpha, the model of
`ImageBuffer<Luma<u8>, Vec<u8>>` used by `src/color_image_mask.rs`. -/
structure GrayImage where
  width : Nat
  height : Nat
  pixel : Nat → Nat → Nat

/-- Exact-arithmetic model of `image::Rgba::blend` (alpha compositing,
"source over destination").  The crate converts the channels to `f32`
fractions, computes `alpha_final = bg_a + fg_a - bg_a * fg_a`, returns the
destination unchanged when `alpha_final == 0`, premultiplies, combines as
`fg + bg * (1 - fg_a)`, unmultiplies, and truncates each channel back to
`u8`.  Written over `Nat` with the common denominator cleared:
`n = 255*bg.a + 255*fg.a - bg.a*fg.a` is `255² * alpha_final`, and each
output channel is the floor of the corresponding real-valued formula. -/
def blendPixel (bg fg : Pixel) : Pixel :=
  let n := 255 * bg.a + 255 * fg.a - bg.a * fg.a
  if n = 0 then bg
  else
    { r := (255 * fg.r * fg.a + bg.r * bg.a * (255 - fg.a)) / n
      g := (255 * fg.g * fg.a + bg.g * bg.a * (255 - fg.a)) / n
      b := (255 * fg.b * fg.a + bg.b * bg.a * (255 - fg.a)) / n
      a := n / 255 }

/-- Model of `image::imageops::overlay(bottom, top, 0, 0)`: blend `top` over
`bottom` on the overlapping region (the componentwise `min` of the two
dimension pairs), leaving the rest of `bottom` unchanged. -/
def overlayImg (bottom top : Image) : Image :=
  { width := bottom.width
    height := bottom.height
    pixel := fun x y =>
      if x < min bottom.width top.width ∧ y < min bottom.height top.height then
        blendPixel (bottom.pixel x y) (top.pixel x y)
      else bottom.pixel x y }

/-- Model of `DynamicImage::new_rgba8(w, h)`: a fully transparent canvas. -/
def transparentCanvas (w h : Nat) : Image :=
  { width := w, height := h, pixel := fun _ _ => ⟨0, 0, 0, 0⟩ }

/-- Whether a byte is an ASCII hexadecimal digit, as accepted by
`char::to_digit(16)` inside `u8::from_str_radix(_, 16)`. -/
def isHexDigitByte (c : Nat) : Bool :=
  (48 ≤ c && c ≤ 57) || (97 ≤ c && c ≤ 102) || (65 ≤ c && c ≤ 70)

/-- Value of an ASCII hexadecimal digit byte (meaningful only when
`isHexDigitByte` holds). -/
def hexDigitVal (c : Nat) : Nat :=
  if c ≤ 57 then c - 48 else if c ≤ 70 then c - 55 else c - 87

/-- Model of `u8::from_str_radix(s, 16)` on a two-byte slice.  Rust's
implementation accepts an optional leading `'+'` sign (a leading `'-'` is
rejected for unsigned types) followed by digits; with exactly two bytes the
accepted forms are two hex digits, or `'+'` followed by one hex digit.
Overflow is impossible at two hex digits. -/
def fromStrRadix2 (c1 c2 : Nat) : Option Nat :=
  if c1 = 43 then
    if isHexDigitByte c2 then some (hexDigitVal c2) else none
  else if isHexDigitByte c1 && isHexDigitByte c2 then
    some (16 * hexDigitVal c1 + hexDigitVal c2)
  else none

/-- Whether a byte may start a character, i.e. is not a UTF-8 continuation
byte.  Slicing a `&str` at an offset whose byte fails this test panics
(`str::is_char_boundary`). -/
def isBoundaryByte (c : Nat) : Bool := c < 128 || 192 ≤ c

/-- Outcome of `hex_to_rgb`: a Rust panic, an `Err(String)`, or `Ok((r,g,b))`. -/
inductive HexResult where
  | panic : HexResult
  | err : String → HexResult
  | ok : Nat → Nat → Nat → HexResult
deriving DecidableEq

/-- Model of `helper::hex_to_rgb`.  The code strips every leading `'#'`
(`trim_start_matches` removes repeated occurrences), requires 6 remaining
bytes (`str::len` counts bytes), then parses the three 2-byte slices
`&hex[0..2]`, `&hex[2..4]`, `&hex[4..6]` with `u8::from_str_radix(_, 16)`.
Slicing at byte offset 2 (resp. 4) panics when that offset falls inside a
multi-byte UTF-8 character; the offsets 0 and 6 are always boundaries. -/
def hex_to_rgb (input : Str) : HexResult :=
  match input.dropWhile (· = 35) with
  | [c0, c1, c2, c3, c4, c5] =>
    if !isBoundaryByte c2 then HexResult.panic
    else
      match fromStrRadix2 c0 c1 with
      | none => HexResult.err "Invalid red value"
      | some r =>
        if !isBoundaryByte c4 then HexResult.panic
        else
          match fromStrRadix2 c2 c3 with
          | none => HexResult.err "Invalid green value"
          | some g =>
            match fromStrRadix2 c4 c5 with
            | none => HexResult.err "Invalid blue value"
            | some b => HexResult.ok r g b
  | _ => HexResult.err "Hex color must be 6 characters long"

/-- Outcome of `helper::colorize_grayscale_image`: a panic escaping from
`hex_to_rgb`, an `Err(String)`, or the produced RGBA image. -/
inductive ColorizeResult where
  | panic : ColorizeResult
  | err : String → ColorizeResult
  | ok : Image → ColorizeResult

/-- Model of `helper::colorize_grayscale_image(gray_img, hex_color,
threshold)`.  The tint is parsed by `hex_to_rgb`; an `Err` is propagated by
`?`.  `ImageBuffer::from_fn` then builds an image of the same dimensions:
a pixel with `gray < threshold` is emitted as neutral `(gray, gray, gray,
alpha)`, otherwise each channel is `(gray as u16 * tint as u16 / 255) as
u8`, modelled as `gray * tint / 255 % 256`, with alpha preserved. -/
def colorize_grayscale_image (gray_img : GrayAImage) (hex_color : Str)
    (threshold : Nat) : ColorizeResult :=
  match hex_to_rgb hex_color with
  | HexResult.panic => ColorizeResult.panic
  | HexResult.err e => ColorizeResult.err e
  | HexResult.ok r_tint g_tint b_tint =>
    ColorizeResult.ok
      { width := gray_img.width
        height := gray_img.height
        pixel := fun x y =>
          let p := gray_img.pixel x y
          let gray := p.1
          let alpha := p.2
          if gray < threshold then ⟨gray, gray, gray, alpha⟩
          else
            ⟨gray * r_tint / 255 % 256,
             gray * g_tint / 255 % 256,
             gray * b_tint / 255 % 256,
             alpha⟩ }

/-- Model of `color_image_mask::colorize_grayscale_image(gray_img, color)`:
the tint arrives as an `(r, g, b)` triple, the input has no alpha channel,
every output pixel's alpha is the constant 255, and each channel is
`(gray as u16 * tint as u16 / 255) as u8`. -/
def colorize_grayscale_image_mask (gray_img : GrayImage)
    (color : Nat × Nat × Nat) : Image :=
  { width := gray_img.width
    height := gray_img.height
    pixel := fun x y =>
      let gray_pixel := gray_img.pixel x y
      ⟨gray_pixel * color.1 / 255 % 256,
       gray_pixel * color.2.1 / 255 % 256,
       gray_pixel * color.2.2 / 255 % 256,
       255⟩ }

/-- Model of `Path::join(base, child)` for the relative, non-empty child
components built by this program: the byte 47 (`'/'`) between the parts. -/
def pathJoin (base child : Str) : Str := base ++ [47] ++ child

/-- Bytes of the `.png` suffix appended by `force_png_path`. -/
def pngExt : Str := strBytes ".png"

/-- Model of `force_png_path(base, name)` (identical in `helper.rs` and
`main.rs`): `base.join(format!("{}.png", name))`. -/
def force_png_path (base : Str) (name : Str) : Str :=
  pathJoin base (name ++ pngExt)

/-- Model of `Path::file_name`: the bytes after the last `'/'`.  (Rust also
returns `None` for paths ending in `..`; the orchestrator only applies this
to constant folder names such as `"SourcePack/Items"`.) -/
def pathFileName (p : Str) : Str := (p.reverse.takeWhile (· ≠ 47)).reverse

/-- Model of `file_name().unwrap_or("Unknown")` in `main.rs`. -/
def fileNameOr (p : Str) : Str :=
  if pathFileName p = [] then strBytes "Unknown" else pathFileName p

/-- Model of `Path::parent`: the bytes before the last `'/'`. -/
def pathParent (p : Str) : Str :=
  ((p.reverse.dropWhile (· ≠ 47)).drop 1).reverse

/-- Model of `layer_name.splitn(2, '#')`: the part before the first `'#'`
byte, and — when a `'#'` occurs — everything after it (later `'#'` bytes are
not split again). -/
def splitFirstHash : Str → Str × Option Str
  | [] => ([], none)
  | c :: rest =>
    if c = 35 then ([], some rest)
    else
      let p := splitFirstHash rest
      (c :: p.1, p.2)

/-- One iteration of the `for layer_name in layers` loop of
`helper::stack_layers`, acting on the canvas.  Returns `none` for a panic
escaping from `colorize_grayscale_image`, otherwise the new canvas together
with the missing path recorded by this iteration (if any):
  * a sentinel spec (empty or `"none"`) is skipped;
  * otherwise the spec is split at the first `'#'` into a base name and an
    optional tint, and the layer is opened at `force_png_path(layer_folder,
    base_name)`;
  * on open failure the candidate path is recorded and the canvas is left
    unchanged;
  * on success, when a tint is present and `colorize_grayscale_image(_, hex,
    37)` succeeds the recolored image is overlaid, when it returns an `Err`
    the untinted layer is overlaid (`if let Ok(colored)` fallback). -/
def stackStep (fetch : Str → Option Image) (toGray : Image → GrayAImage)
    (layer_folder : Str) (canvas : Image) (layer_name : Str) :
    Option (Image × Option Str) :=
  if layer_name = [] ∨ layer_name = noneStr then some (canvas, none)
  else
    let base_name := (splitFirstHash layer_name).1
    let hex_color := (splitFirstHash layer_name).2
    let layer_img_path := force_png_path layer_folder base_name
    match fetch layer_img_path with
    | some layer_img =>
      match hex_color with
      | some hex =>
        match colorize_grayscale_image (toGray layer_img) hex 37 with
        | ColorizeResult.panic => none
        | ColorizeResult.ok colored => some (overlayImg canvas colored, none)
        | ColorizeResult.err _ => some (overlayImg canvas layer_img, none)
      | none => some (overlayImg canvas layer_img, none)
    | none => some (canvas, some layer_img_path)

/-- The loop of `helper::stack_layers`: iterate `stackStep` over the spec
list, threading the canvas and accumulating the missing paths in order
(`missing_layer_paths` in the code). -/
def stackAux (fetch : Str → Option Image) (toGray : Image → GrayAImage)
    (layer_folder : Str) (canvas : Image) (acc : List Str) :
    List Str → Option (Image × List Str)
  | [] => some (canvas, acc)
  | spec :: rest =>
    match stackStep fetch toGray layer_folder canvas spec with
    | none => none
    | some (c', none) => stackAux fetch toGray layer_folder c' acc rest
    | some (c', some p) => stackAux fetch toGray layer_folder c' (acc ++ [p]) rest

/-- Whether a byte is ASCII whitespace; `str::trim_end` strips Unicode
whitespace characters, which on the final bytes of a valid UTF-8 string
coincides with this ASCII set (multi-byte whitespace characters end in
continuation bytes, which are not whitespace). -/
def isAsciiWs (c : Nat) : Bool :=
  c = 9 || c = 10 || c = 11 || c = 12 || c = 13 || c = 32

/-- Model of `str::trim_end` (on the byte strings this program builds). -/
def trimEndWs (s : Str) : Str := (s.reverse.dropWhile isAsciiWs).reverse

/-- The grouped diagnostic entry built at the end of `stack_layers`:
`format!("{}:\n", input_image_path)` followed by one `"\t- {path}\n"` line
per missing path, with trailing whitespace trimmed. -/
def groupEntry (input_image_path : Str) (paths : List Str) : Str :=
  trimEndWs (input_image_path ++ strBytes ":" ++ [10] ++
    (paths.map (fun p => [9, 45, 32] ++ p ++ [10])).flatten)

/-- Model of `helper::stack_layers(input_image, input_image_path,
layer_folder, layers)`.  `none` models a panic aborting the run; otherwise
the result is the final canvas and the returned `missing_layers` vector:
empty when no layer path was missing, and otherwise exactly one entry
grouping every missing path under `input_image_path`. -/
def stack_layers (fetch : Str → Option Image) (toGray : Image → GrayAImage)
    (input_image : Image) (input_image_path : Str) (layer_folder : Str)
    (layers : List Str) : Option (Image × List Str) :=
  match stackAux fetch toGray layer_folder input_image [] layers with
  | none => none
  | some (c, paths) =>
    some (c, if paths = [] then [] else [groupEntry input_image_path paths])

/-- Whether a spec records a missing path in `stack_layers`: it is not a
sentinel and the resolved layer file does not open. -/
def isMissing (fetch : Str → Option Image) (layer_folder : Str) (spec : Str) :
    Bool :=
  if spec = [] ∨ spec = noneStr then false
  else (fetch (force_png_path layer_folder (splitFirstHash spec).1)).isNone

/-- Whether processing a spec panics inside `stack_layers`: the layer opens,
carries a tint, and `hex_to_rgb` panics on the tint bytes. -/
def stepPanics (fetch : Str → Option Image) (layer_folder : Str) (spec : Str) :
    Bool :=
  if spec = [] ∨ spec = noneStr then false
  else
    match fetch (force_png_path layer_folder (splitFirstHash spec).1) with
    | none => false
    | some _ =>
      match (splitFirstHash spec).2 with
      | none => false
      | some hex =>
        match hex_to_rgb hex with
        | HexResult.panic => true
        | _ => false

/-- The missing layer paths of a spec list, stated declaratively: the
resolved path of every non-sentinel spec whose file does not open, in list
order. -/
def missingPathsOf (fetch : Str → Option Image) (layer_folder : Str)
    (layers : List Str) : List Str :=
  (layers.filter (fun s => isMissing fetch layer_folder s)).map
    (fun s => force_png_path layer_folder (splitFirstHash s).1)

/-- Model of `let no_layer = layers.is_empty() || layers[0] == "none"` in
`main.rs` (the indexing is guarded by the short-circuit `||`). -/
def no_layer (layers : List Str) : Bool :=
  match layers with
  | [] => true
  | l0 :: _ => l0 = noneStr

/-- Bytes of the `"Rarities"` background base folder of `main.rs`. -/
def raritiesBase : Str := strBytes "Rarities"

/-- The `for layer_name in layers` loop of `main.rs` (lines 141–154): skip
sentinel specs; when a rarity folder is configured for the element type,
open `Rarities/<rarity_folder>/<layer_name>.png` and overlay it, silently
ignoring a failed open; without a rarity folder the spec is ignored. -/
def drawLayersMain (fetch : Str → Option Image) (rarityOpt : Option Str)
    (canvas : Image) (layers : List Str) : Image :=
  layers.foldl
    (fun img layer_name =>
      if layer_name = [] ∨ layer_name = noneStr then img
      else
        match rarityOpt with
        | some rarity_folder =>
          match fetch (force_png_path (pathJoin raritiesBase rarity_folder)
              layer_name) with
          | some layer_img => overlayImg img layer_img
          | none => img
        | none => img)
    canvas

/-- Model of the per-asset composition of `main.rs` (lines 134–156): start
from a clone of the base image when `no_layer` holds and from a transparent
canvas of the base image's dimensions otherwise, draw the layer loop, then
overlay the base image on top. -/
def composeMain (fetch : Str → Option Image) (rarityOpt : Option Str)
    (item_img : Image) (layers : List Str) : Image :=
  let final_img :=
    if no_layer layers then item_img
    else transparentCanvas item_img.width item_img.height
  overlayImg (drawLayersMain fetch rarityOpt final_img layers) item_img

/-- Reference composition from the specification: a fully transparent canvas
sized exactly to the base image, each non-sentinel layer alpha-composited in
list order, and the base image overlaid last. -/
def refCompose (fetch : Str → Option Image) (rarityOpt : Option Str)
    (item_img : Image) (layers : List Str) : Image :=
  overlayImg
    (drawLayersMain fetch rarityOpt
      (transparentCanvas item_img.width item_img.height) layers)
    item_img

/-- One asset composition task of the batch loop in `main.rs`: the optional
rarity folder of the element type, the source pack folder, the asset
identifier (the JSON key `filename`), and its layer spec list. -/
structure AssetTask where
  rarityOpt : Option Str
  packFolder : Str
  filename : Str
  layers : List Str

/-- Bytes of the `"Output_Pack"` output folder of `main.rs`. -/
def outputFolderStr : Str := strBytes "Output_Pack"

/-- The output path computed by `main.rs` (lines 114–120):
`Output_Pack/<file_name(pack_folder)>/<filename>.png`. -/
def outputPathOf (packFolder filename : Str) : Str :=
  pathJoin (pathJoin outputFolderStr (fileNameOr packFolder))
    (filename ++ pngExt)

/-- Observable outcome of one iteration of the asset loop of `main.rs`:
the directories passed to `create_dir_all`, the identifiers pushed onto
`skipped_images`, and the saved output (path and image), if any. -/
structure TaskOutcome where
  dirsCreated : List Str
  skipped : List Str
  saved : Option (Str × Image)

/-- Model of one iteration of the asset loop of `main.rs` (lines 105–160):
compute the output path, create its parent directory, open the base image at
`force_png_path(pack_folder, filename)` — on failure record the identifier
in `skipped_images` and `continue` — and otherwise compose and save. -/
def processTask (openImg : Str → Option Image) (t : AssetTask) : TaskOutcome :=
  let output_path := outputPathOf t.packFolder t.filename
  let dirs := [pathParent output_path]
  match openImg (force_png_path t.packFolder t.filename) with
  | none => { dirsCreated := dirs, skipped := [t.filename], saved := none }
  | some item_img =>
    { dirsCreated := dirs
      skipped := []
      saved := some (output_path, composeMain openImg t.rarityOpt item_img t.layers) }

/-- The batch loop of `main.rs`: process every task in order, accumulating
the `skipped_images` entries and the saved outputs. -/
def runTasks (openImg : Str → Option Image) :
    List AssetTask → List Str × List (Str × Image)
  | [] => ([], [])
  | t :: ts =>
    let o := processTask openImg t
    let rest := runTasks openImg ts
    (o.skipped ++ rest.1,
     (match o.saved with | some s => [s] | none => []) ++ rest.2)

/-- Modelled from the spec: the missing-layers diagnostic contribution of one
task under the §4.4 asset compositor, which `main.rs` (this revision ignores
missing layers silently) does not aggregate.  If the base image opens and a
layer folder is configured, the task contributes the grouped entries
returned by `stack_layers` on a transparent canvas sized to the base image,
grouped under the asset's image path; otherwise (and when a malformed tint
panics, which aborts the whole run — see the C7 analysis) it contributes
nothing. -/
def taskMissing (openImg : Str → Option Image) (toGray : Image → GrayAImage)
    (t : AssetTask) : List Str :=
  match openImg (force_png_path t.packFolder t.filename) with
  | none => []
  | some item_img =>
    match t.rarityOpt with
    | none => []
    | some rarity_folder =>
      match stack_layers openImg toGray
          (transparentCanvas item_img.width item_img.height)
          (force_png_path t.packFolder t.filename)
          (pathJoin raritiesBase rarity_folder) t.layers with
      | none => []
      | some (_, missing) => missing

/-- Modelled from the spec: one step of a concurrent worker schedule over
per-task diagnostic contributions.  `rem` holds the not-yet-appended entries
of each task, in task order; step `k` appends the next entry of task `k`
(spec §5: appends are atomic per entry, with no ordering guarantee between
tasks).  An exhausted or out-of-range index is a no-op. -/
def schedStep (rem : List (List Str)) (log : List Str) (k : Nat) :
    List (List Str) × List Str :=
  match rem.get? k with
  | some (e :: rest) => (rem.set k rest, log ++ [e])
  | _ => (rem, log)

/-- Modelled from the spec: run a whole interleaving (a list of worker/task
indices) over the per-task diagnostic contributions. -/
def runSched (rem : List (List Str)) (log : List Str) :
    List Nat → List (List Str) × List Str
  | [] => (rem, log)
  | k :: sch =>
    let s := schedStep rem log k
    runSched s.1 s.2 sch

/-- A schedule is complete when every task's contributions have all been
appended. -/
def schedComplete (rem : List (List Str)) (sch : List Nat) : Bool :=
  (runSched rem [] sch).1.all (fun l => l.isEmpty)

/-! ### Concrete fixtures used by counterexamples and witnesses -/

/-- A semi-transparent gray base pixel (alpha 128). -/
def pixBase : Pixel := ⟨100, 100, 100, 128⟩

/-- A 1×1 base image whose only pixel is semi-transparent. -/
def imgBase : Image := ⟨1, 1, fun _ _ => pixBase⟩

/-- A 1×1 fully transparent layer image. -/
def imgLayerT : Image := ⟨1, 1, fun _ _ => ⟨55, 66, 77, 0⟩⟩

/-- An open oracle that resolves every path to `imgLayerT`. -/
def fetchT : Str → Option Image := fun _ => some imgLayerT

/-- A grayscale conversion oracle returning a constant (128, 255) raster of
the input's dimensions (the conversion values are never load-bearing). -/
def toGrayT : Image → GrayAImage :=
  fun i => ⟨i.width, i.height, fun _ _ => (128, 255)⟩

/-- An open oracle that fails on every path. -/
def openNone : Str → Option Image := fun _ => none

/-- A layer folder name used by concrete stacker runs. -/
def folderF : Str := strBytes "F"

/-- An open oracle that resolves only layer `a` inside `folderF`. -/
def fetchAB : Str → Option Image :=
  fun p => if p = force_png_path folderF (strBytes "a") then some imgLayerT else none

/-! ### Helper lemmas -/

/-- Extensionality for the image model: equal dimensions and equal pixel
functions give equal images. -/
theorem imageExt {i j : Image} (hw : i.width = j.width)
    (hh : i.height = j.height) (hp : ∀ x y, i.pixel x y = j.pixel x y) :
    i = j := by
  obtain ⟨w, h, p⟩ := i
  obtain ⟨w', h', p'⟩ := j
  simp only at hw hh
  subst hw
  subst hh
  have : p = p' := funext fun x => funext fun y => hp x y
  rw [this]

/-- A hexadecimal digit byte has value at most 15. -/
theorem hexDigitVal_le (c : Nat) (h : isHexDigitByte c = true) :
    hexDigitVal c ≤ 15 := by
  simp [isHexDigitByte] at h
  unfold hexDigitVal
  split_ifs <;> omega

/-- A hexadecimal digit byte is not `'#'`, not `'+'`, and is a character
boundary byte. -/
theorem hexByte_props (c : Nat) (h : isHexDigitByte c = true) :
    c ≠ 35 ∧ c ≠ 43 ∧ isBoundaryByte c = true := by
  simp [isHexDigitByte] at h
  refine ⟨by omega, by omega, ?_⟩
  simp [isBoundaryByte]
  omega

/-- `u8::from_str_radix` on two bytes never exceeds 255. -/
theorem fromStrRadix2_le (c1 c2 v : Nat) (h : fromStrRadix2 c1 c2 = some v) :
    v ≤ 255 := by
  unfold fromStrRadix2 at h
  by_cases h1 : c1 = 43
  · rw [if_pos h1] at h
    by_cases h2 : isHexDigitByte c2 = true
    · rw [if_pos h2] at h
      cases h
      have := hexDigitVal_le c2 h2
      omega
    · rw [if_neg h2] at h
      cases h
  · rw [if_neg h1] at h
    by_cases h3 : (isHexDigitByte c1 && isHexDigitByte c2) = true
    · rw [if_pos h3] at h
      simp only [Bool.and_eq_true] at h3
      cases h
      have ha := hexDigitVal_le c1 h3.1
      have hb := hexDigitVal_le c2 h3.2
      omega
    · rw [if_neg h3] at h
      cases h

/-- The channels produced by a successful `hex_to_rgb` are `u8` values. -/
theorem hex_ok_le (s : Str) (r g b : Nat)
    (h : hex_to_rgb s = HexResult.ok r g b) : r ≤ 255 ∧ g ≤ 255 ∧ b ≤ 255 := by
  unfold hex_to_rgb at h
  rcases hl : s.dropWhile (· = 35) with _ | ⟨c0, _ | ⟨c1, _ | ⟨c2, _ | ⟨c3, _ | ⟨c4, _ | ⟨c5, _ | ⟨c6, t⟩⟩⟩⟩⟩⟩⟩ <;>
    rw [hl] at h <;> try cases h
  dsimp only at h
  by_cases hb2 : (!isBoundaryByte c2) = true
  · rw [if_pos hb2] at h
    cases h
  · rw [if_neg hb2] at h
    rcases h1 : fromStrRadix2 c0 c1 with _ | v1 <;> rw [h1] at h <;> dsimp only at h
    · cases h
    · by_cases hb4 : (!isBoundaryByte c4) = true
      · rw [if_pos hb4] at h
        cases h
      · rw [if_neg hb4] at h
        rcases h2 : fromStrRadix2 c2 c3 with _ | v2 <;> rw [h2] at h <;> dsimp only at h
        · cases h
        · rcases h3 : fromStrRadix2 c4 c5 with _ | v3 <;> rw [h3] at h <;> dsimp only at h
          · cases h
          · cases h
            exact ⟨fromStrRadix2_le c0 c1 _ h1, fromStrRadix2_le c2 c3 _ h2,
              fromStrRadix2_le c4 c5 _ h3⟩

/-- Scaling a `u8` gray value by `tint / 255` never exceeds the tint. -/
theorem scale_le (gray t : Nat) (h : gray ≤ 255) : gray * t / 255 ≤ t :=
  calc gray * t / 255 ≤ 255 * t / 255 :=
        Nat.div_le_div_right (Nat.mul_le_mul_right t h)
    _ = t := Nat.mul_div_cancel_left t (by norm_num)

/-- Stripping leading `'#'` bytes ignores a replicated `'#'` block. -/
theorem dropWhile_hash_replicate (k : Nat) (l : Str) :
    (List.replicate k 35 ++ l).dropWhile (· = 35) = l.dropWhile (· = 35) := by
  induction k with
  | zero => simp
  | succ n ih => simp [List.replicate_succ, List.dropWhile_cons, ih]

/-- Specification-side tinted image (spec §4.1, threshold variant): pixels
with `gray < threshold` are neutral `(gray, gray, gray, alpha)`; all other
pixels are `(⌊gray*r/255⌋, ⌊gray*g/255⌋, ⌊gray*b/255⌋, alpha)`. -/
def thresholdImageSpec (img : GrayAImage) (r g b threshold : Nat) : Image :=
  { width := img.width
    height := img.height
    pixel := fun x y =>
      let gray := (img.pixel x y).1
      let alpha := (img.pixel x y).2
      if gray < threshold then ⟨gray, gray, gray, alpha⟩
      else ⟨gray * r / 255, gray * g / 255, gray * b / 255, alpha⟩ }

/-- Specification-side tinted image without threshold (spec §4.1 base
contract, claim C1): every pixel is `(⌊gray*r/255⌋, ⌊gray*g/255⌋,
⌊gray*b/255⌋, alpha)`. -/
def tintedImageSpec (img : GrayAImage) (r g b : Nat) : Image :=
  { width := img.width
    height := img.height
    pixel := fun x y =>
      ⟨(img.pixel x y).1 * r / 255, (img.pixel x y).1 * g / 255,
       (img.pixel x y).1 * b / 255, (img.pixel x y).2⟩ }

/-- On a `u8`-valued grayscale image, `colorize_grayscale_image` computes
exactly the specification-side threshold image (the `as u8` casts never
truncate because every scaled channel stays below 256). -/
theorem colorize_ok_general (img : GrayAImage) (hex : Str) (r g b t : Nat)
    (hok : hex_to_rgb hex = HexResult.ok r g b)
    (hv : ∀ x y, (img.pixel x y).1 ≤ 255) :
    colorize_grayscale_image img hex t
      = ColorizeResult.ok (thresholdImageSpec img r g b t) := by
  obtain ⟨hr, hg, hb⟩ := hex_ok_le hex r g b hok
  unfold colorize_grayscale_image
  rw [hok]
  dsimp only
  congr 1
  refine imageExt rfl rfl ?_
  intro x y
  dsimp only [thresholdImageSpec]
  by_cases hlt : (img.pixel x y).1 < t
  · rw [if_pos hlt, if_pos hlt]
  · rw [if_neg hlt, if_neg hlt]
    have e1 : (img.pixel x y).1 * r / 255 % 256 = (img.pixel x y).1 * r / 255 :=
      Nat.mod_eq_of_lt (by have := scale_le (img.pixel x y).1 r (hv x y); omega)
    have e2 : (img.pixel x y).1 * g / 255 % 256 = (img.pixel x y).1 * g / 255 :=
      Nat.mod_eq_of_lt (by have := scale_le (img.pixel x y).1 g (hv x y); omega)
    have e3 : (img.pixel x y).1 * b / 255 % 256 = (img.pixel x y).1 * b / 255 :=
      Nat.mod_eq_of_lt (by have := scale_le (img.pixel x y).1 b (hv x y); omega)
    rw [e1, e2, e3]

/-- With threshold 0 the threshold image is the plain tinted image. -/
theorem thresholdImageSpec_zero (img : GrayAImage) (r g b : Nat) :
    thresholdImageSpec img r g b 0 = tintedImageSpec img r g b := by
  refine imageExt rfl rfl ?_
  intro x y
  simp [thresholdImageSpec, tintedImageSpec]

/-! ### Claim C1 — color tinting, exact per-pixel contract -/

/-- Claim C1: for every grayscale-with-alpha image with `u8` pixel values
and every tint that parses to `(r, g, b)`, Color Tinting
(`helper::colorize_grayscale_image` in its no-threshold mode, threshold 0)
produces an RGBA image of identical dimensions in which every pixel's alpha
equals the source alpha exactly and every color channel equals
`⌊gray * tint / 255⌋`, hence lies in `[0, tint]`. -/
theorem claimC1_tint_exact (img : GrayAImage) (hex : Str) (r g b : Nat)
    (hok : hex_to_rgb hex = HexResult.ok r g b)
    (hv : ∀ x y, (img.pixel x y).1 ≤ 255) :
    colorize_grayscale_image img hex 0
      = ColorizeResult.ok (tintedImageSpec img r g b)
    ∧ (tintedImageSpec img r g b).width = img.width
    ∧ (tintedImageSpec img r g b).height = img.height
    ∧ ∀ x y, ((tintedImageSpec img r g b).pixel x y).r = (img.pixel x y).1 * r / 255
        ∧ ((tintedImageSpec img r g b).pixel x y).g = (img.pixel x y).1 * g / 255
        ∧ ((tintedImageSpec img r g b).pixel x y).b = (img.pixel x y).1 * b / 255
        ∧ ((tintedImageSpec img r g b).pixel x y).a = (img.pixel x y).2
        ∧ ((tintedImageSpec img r g b).pixel x y).r ≤ r
        ∧ ((tintedImageSpec img r g b).pixel x y).g ≤ g
        ∧ ((tintedImageSpec img r g b).pixel x y).b ≤ b := by
  refine ⟨?_, rfl, rfl, ?_⟩
  · rw [colorize_ok_general img hex r g b 0 hok hv, thresholdImageSpec_zero]
  · intro x y
    refine ⟨rfl, rfl, rfl, rfl, ?_, ?_, ?_⟩ <;> exact scale_le _ _ (hv x y)

/-- Concrete grayscale-with-alpha image used by witnesses. -/
def imgGrayW : GrayAImage := ⟨1, 1, fun _ _ => (100, 77)⟩

/-- Witness for C1 at a concrete image and the tint `#40C020`. -/
theorem claimC1_witness :
    colorize_grayscale_image imgGrayW (strBytes "#40C020") 0
      = ColorizeResult.ok (tintedImageSpec imgGrayW 64 192 32) :=
  (claimC1_tint_exact imgGrayW (strBytes "#40C020") 64 192 32 (by decide)
    (by intro x y; norm_num [imgGrayW])).1

/-! ### Claim C3 — hex tint parsing -/

/-- Claim C3 counterexample: `"##FF0000"` has two leading `'#'`, so by the
claim it should fail deterministically with an error; the code's
`trim_start_matches('#')` strips every leading `'#'` and the parse
succeeds. -/
theorem claimC3_counterexample :
    hex_to_rgb (strBytes "##FF0000") = HexResult.ok 255 0 0 := by decide

/-- Claim C3, amended: after stripping every leading `'#'` byte, an input of
6 hex digits parses to the corresponding triple (for any number of leading
`'#'`); an input whose remainder is not 6 bytes long errors
deterministically; but the failure mode is not always an error value:
a 6-byte remainder containing a multi-byte UTF-8 character astride byte
offset 2 or 4 panics (the bytes of `"1é234"` below), and a 2-byte chunk of
the form `'+'`-digit is accepted by `u8::from_str_radix` (`"AB+1CD"`). -/
theorem claimC3_amended :
    (∀ k a b c d e f : Nat,
      isHexDigitByte a = true → isHexDigitByte b = true →
      isHexDigitByte c = true → isHexDigitByte d = true →
      isHexDigitByte e = true → isHexDigitByte f = true →
      hex_to_rgb (List.replicate k 35 ++ [a, b, c, d, e, f])
        = HexResult.ok (16 * hexDigitVal a + hexDigitVal b)
            (16 * hexDigitVal c + hexDigitVal d)
            (16 * hexDigitVal e + hexDigitVal f))
    ∧ (∀ s : Str, (s.dropWhile (· = 35)).length ≠ 6 →
        hex_to_rgb s = HexResult.err "Hex color must be 6 characters long")
    ∧ hex_to_rgb [49, 195, 169, 50, 51, 52] = HexResult.panic
    ∧ hex_to_rgb (strBytes "AB+1CD") = HexResult.ok 171 1 205 := by
  refine ⟨?_, ?_, by decide, by decide⟩
  · intro k a b c d e f ha hb hc hd he hf
    obtain ⟨ha35, ha43, -⟩ := hexByte_props a ha
    obtain ⟨-, hc43, hcB⟩ := hexByte_props c hc
    obtain ⟨-, he43, heB⟩ := hexByte_props e he
    have hab : fromStrRadix2 a b = some (16 * hexDigitVal a + hexDigitVal b) := by
      unfold fromStrRadix2
      rw [if_neg ha43, if_pos (by simp [ha, hb])]
    have hcd : fromStrRadix2 c d = some (16 * hexDigitVal c + hexDigitVal d) := by
      unfold fromStrRadix2
      rw [if_neg hc43, if_pos (by simp [hc, hd])]
    have hef : fromStrRadix2 e f = some (16 * hexDigitVal e + hexDigitVal f) := by
      unfold fromStrRadix2
      rw [if_neg he43, if_pos (by simp [he, hf])]
    unfold hex_to_rgb
    rw [dropWhile_hash_replicate, List.dropWhile_cons,
      if_neg (by simp [ha35])]
    dsimp only
    simp [hcB, heB, hab, hcd, hef]
  · intro s h
    unfold hex_to_rgb
    generalize hl : s.dropWhile (· = 35) = l
    rw [hl] at h
    rcases l with _ | ⟨a, _ | ⟨b, _ | ⟨c, _ | ⟨d, _ | ⟨e, _ | ⟨f, _ | ⟨g, t⟩⟩⟩⟩⟩⟩⟩
    any_goals rfl
    simp at h

/-- Witness for C3 (amended): one leading `'#'` followed by `FF0000`
parses to `(255, 0, 0)`, and a 3-byte input errors on its length. -/
theorem claimC3_witness :
    hex_to_rgb (List.replicate 1 35 ++ [70, 70, 48, 48, 48, 48])
      = HexResult.ok 255 0 0
    ∧ hex_to_rgb (strBytes "FFF")
      = HexResult.err "Hex color must be 6 characters long" :=
  ⟨claimC3_amended.1 1 70 70 48 48 48 48 (by decide) (by decide) (by decide)
      (by decide) (by decide) (by decide),
   claimC3_amended.2.1 (strBytes "FFF") (by decide)⟩

/-! ### Claim C8 — threshold tinting and the stacker's threshold 37 -/

/-- A step that neither panics nor records a missing path advances the
stacker loop with its new canvas. -/
theorem stackAux_cons_step (fetch : Str → Option Image)
    (toGray : Image → GrayAImage) (folder : Str) (canvas c' : Image)
    (acc : List Str) (spec : Str) (rest : List Str)
    (h : stackStep fetch toGray folder canvas spec = some (c', none)) :
    stackAux fetch toGray folder canvas acc (spec :: rest)
      = stackAux fetch toGray folder c' acc rest := by
  simp only [stackAux, h]

/-- Evaluation of one stacker step on a non-sentinel spec carrying a tint
whose layer file opens: the outcome is decided by
`colorize_grayscale_image(_, hex, 37)`. -/
theorem stackStep_tint (fetch : Str → Option Image)
    (toGray : Image → GrayAImage) (folder : Str) (canvas : Image)
    (spec name hex : Str) (img : Image)
    (hns : ¬(spec = [] ∨ spec = noneStr))
    (hsplit : splitFirstHash spec = (name, some hex))
    (hfetch : fetch (force_png_path folder name) = some img) :
    stackStep fetch toGray folder canvas spec
      = match colorize_grayscale_image (toGray img) hex 37 with
        | ColorizeResult.panic => none
        | ColorizeResult.ok colored => some (overlayImg canvas colored, none)
        | ColorizeResult.err _ => some (overlayImg canvas img, none) := by
  simp only [stackStep, if_neg hns, hsplit, hfetch]

/-- Claim C8: in threshold mode, every pixel with `gray < threshold` is
emitted as the neutral `(gray, gray, gray, alpha)` regardless of the tint,
while the pixels at or above the threshold receive the tinted value; and
the Layer Stacker's tinting path invokes Color Tinting with threshold 37
(the overlay it performs is the one produced by
`colorize_grayscale_image(_, hex, 37)`). -/
theorem claimC8_threshold :
    (∀ (img : GrayAImage) (hex : Str) (r g b threshold : Nat),
      hex_to_rgb hex = HexResult.ok r g b →
      (∀ x y, (img.pixel x y).1 ≤ 255) →
      colorize_grayscale_image img hex threshold
        = ColorizeResult.ok (thresholdImageSpec img r g b threshold)
      ∧ ∀ x y, (img.pixel x y).1 < threshold →
          (thresholdImageSpec img r g b threshold).pixel x y
            = ⟨(img.pixel x y).1, (img.pixel x y).1, (img.pixel x y).1,
               (img.pixel x y).2⟩)
    ∧ (∀ (fetch : Str → Option Image) (toGray : Image → GrayAImage)
        (canvas : Image) (path folder spec name hex : Str)
        (rest : List Str) (img colored : Image),
      ¬(spec = [] ∨ spec = noneStr) →
      splitFirstHash spec = (name, some hex) →
      fetch (force_png_path folder name) = some img →
      colorize_grayscale_image (toGray img) hex 37 = ColorizeResult.ok colored →
      stack_layers fetch toGray canvas path folder (spec :: rest)
        = stack_layers fetch toGray (overlayImg canvas colored) path folder rest) := by
  constructor
  · intro img hex r g b threshold hok hv
    refine ⟨colorize_ok_general img hex r g b threshold hok hv, ?_⟩
    intro x y hlt
    simp [thresholdImageSpec, hlt]
  · intro fetch toGray canvas path folder spec name hex rest img colored hns
      hsplit hfetch hcol
    have hstep : stackStep fetch toGray folder canvas spec
        = some (overlayImg canvas colored, none) := by
      rw [stackStep_tint fetch toGray folder canvas spec name hex img hns
        hsplit hfetch, hcol]
    unfold stack_layers
    rw [stackAux_cons_step fetch toGray folder canvas
      (overlayImg canvas colored) [] spec rest hstep]

/-- The image produced by tinting the constant gray conversion of
`imgLayerT` with `#40C020` at threshold 37. -/
def imgColoredW : Image := thresholdImageSpec (toGrayT imgLayerT) 64 192 32 37

/-- Evaluation of the tinting of the fixture layer at threshold 37. -/
theorem colorizeW_eval :
    colorize_grayscale_image (toGrayT imgLayerT) (strBytes "40C020") 37
      = ColorizeResult.ok imgColoredW :=
  colorize_ok_general (toGrayT imgLayerT) (strBytes "40C020") 64 192 32 37
    (by decide) (by intro x y; norm_num [toGrayT])

/-- Witness for C8: the threshold image at threshold 200 on a gray-100
pixel, its neutral below-threshold pixel, and a concrete stacker step using
threshold 37. -/
theorem claimC8_witness :
    colorize_grayscale_image imgGrayW (strBytes "#40C020") 200
      = ColorizeResult.ok (thresholdImageSpec imgGrayW 64 192 32 200)
    ∧ (thresholdImageSpec imgGrayW 64 192 32 200).pixel 0 0 = ⟨100, 100, 100, 77⟩
    ∧ stack_layers fetchT toGrayT imgBase (strBytes "P") folderF
        [strBytes "f#40C020", strBytes "g"]
        = stack_layers fetchT toGrayT (overlayImg imgBase imgColoredW)
            (strBytes "P") folderF [strBytes "g"] :=
  ⟨(claimC8_threshold.1 imgGrayW (strBytes "#40C020") 64 192 32 200 (by decide)
      (by intro x y; norm_num [imgGrayW])).1,
   (claimC8_threshold.1 imgGrayW (strBytes "#40C020") 64 192 32 200 (by decide)
      (by intro x y; norm_num [imgGrayW])).2 0 0 (by norm_num [imgGrayW]),
   claimC8_threshold.2 fetchT toGrayT imgBase (strBytes "P") folderF
     (strBytes "f#40C020") (strBytes "f") (strBytes "40C020") [strBytes "g"]
     imgLayerT imgColoredW (by decide) (by decide) rfl colorizeW_eval⟩

/-! ### Claim C7 — tint-parse failure falls back to the untinted layer -/

/-- Claim C7 counterexample: the layer spec `"f#1é234"` carries a tint whose
bytes fail to parse as a color, yet the stacker does not composite the
untinted layer and continue — `hex_to_rgb` slices the 6-byte remainder
`"1é234"` inside the two-byte character `é` and panics, aborting the whole
run (`stack_layers` returns the panic outcome `none`). -/
theorem claimC7_counterexample :
    stack_layers fetchT toGrayT (transparentCanvas 1 1)
      (strBytes "SourcePack/Items/sword.png") (strBytes "Rarities/perks")
      [[102, 35, 49, 195, 169, 50, 51, 52]] = none := rfl

/-- Claim C7, amended: when the tint of a loaded layer fails to parse by
returning an error (`hex_to_rgb` yields `Err`), the Layer Stacker overlays
the untinted loaded layer and continues with the remaining specs — the
parse error aborts nothing; however, a malformed tint whose stripped
remainder is 6 bytes with a multi-byte UTF-8 character astride byte offset
2 or 4 does not reach the error fallback: it panics and aborts the layer,
the stack and the whole run. -/
theorem claimC7_amended (fetch : Str → Option Image)
    (toGray : Image → GrayAImage) (canvas : Image) (path folder : Str)
    (spec name hex : Str) (rest : List Str) (img : Image) (e : String)
    (hns : ¬(spec = [] ∨ spec = noneStr))
    (hsplit : splitFirstHash spec = (name, some hex))
    (hfetch : fetch (force_png_path folder name) = some img)
    (herr : hex_to_rgb hex = HexResult.err e) :
    stack_layers fetch toGray canvas path folder (spec :: rest)
      = stack_layers fetch toGray (overlayImg canvas img) path folder rest := by
  have hcol : colorize_grayscale_image (toGray img) hex 37
      = ColorizeResult.err e := by
    unfold colorize_grayscale_image
    rw [herr]
  have hstep : stackStep fetch toGray folder canvas spec
      = some (overlayImg canvas img, none) := by
    rw [stackStep_tint fetch toGray folder canvas spec name hex img hns
      hsplit hfetch, hcol]
  unfold stack_layers
  rw [stackAux_cons_step fetch toGray folder canvas (overlayImg canvas img)
    [] spec rest hstep]

/-- Witness for C7 (amended): the tint `"xx0000"` errors on its red chunk
and the untinted fixture layer is composited. -/
theorem claimC7_witness :
    stack_layers fetchT toGrayT imgBase (strBytes "P") folderF
      [strBytes "f#xx0000"]
      = stack_layers fetchT toGrayT (overlayImg imgBase imgLayerT)
          (strBytes "P") folderF [] :=
  claimC7_amended fetchT toGrayT imgBase (strBytes "P") folderF
    (strBytes "f#xx0000") (strBytes "f") (strBytes "xx0000") [] imgLayerT
    "Invalid red value" (by decide) (by decide) rfl (by decide)

/-! ### Claim C2 — composition against the reference -/

/-- Claim C2 counterexample: for an asset with an empty layer list and a
semi-transparent base pixel (alpha 128), the saved image differs from the
reference composition.  The code takes `final_img = item_img.clone()` when
`no_layer` holds and then overlays the base onto itself, boosting the pixel
alpha from 128 to 191, while the reference (transparent canvas, then base)
keeps alpha 128 — a gap of 63, far beyond any `f32` rounding effect in the
crate's blend. -/
theorem claimC2_counterexample :
    (composeMain fetchT (some (strBytes "f")) imgBase []).pixel 0 0
      ≠ (refCompose fetchT (some (strBytes "f")) imgBase []).pixel 0 0 := by
  decide

/-- Claim C2, amended: whenever the layer list is non-empty and its first
spec is not `"none"` (`no_layer` is false), the composed image equals,
pixel for pixel, the reference composition — transparent canvas sized to
the base, non-sentinel layers overlaid in list order, base overlaid last.
When the list is empty or starts with `"none"`, the code instead starts
from a clone of the base image and still overlays the base on top of it,
which differs from the reference on semi-transparent base pixels. -/
theorem claimC2_amended (fetch : Str → Option Image) (rarityOpt : Option Str)
    (item_img : Image) (layers : List Str)
    (h : no_layer layers = false) :
    composeMain fetch rarityOpt item_img layers
      = refCompose fetch rarityOpt item_img layers := by
  simp only [composeMain, refCompose, h]
  rfl

/-- Witness for C2 (amended) on a one-layer list. -/
theorem claimC2_witness :
    composeMain fetchT (some (strBytes "f")) imgBase [strBytes "f"]
      = refCompose fetchT (some (strBytes "f")) imgBase [strBytes "f"] :=
  claimC2_amended fetchT (some (strBytes "f")) imgBase [strBytes "f"]
    (by decide)

/-! ### Claim C6 — sentinel specs are no-ops -/

/-- Claim C6 counterexample: removing the leading sentinel `"none"` from the
layer list `["none", "f"]` changes the final composed image in `main.rs`,
because the leading `"none"` makes `no_layer` true and the canvas starts
from the base image instead of a transparent canvas (output alpha 191
versus 128 on a semi-transparent base pixel). -/
theorem claimC6_counterexample :
    (composeMain fetchT (some (strBytes "f")) imgBase [noneStr, strBytes "f"]).pixel 0 0
      ≠ (composeMain fetchT (some (strBytes "f")) imgBase [strBytes "f"]).pixel 0 0 := by
  decide

/-- Removing a sentinel spec anywhere in the list leaves the stacker loop
unchanged, for every canvas and accumulator. -/
theorem stackAux_sentinel_removal (fetch : Str → Option Image)
    (toGray : Image → GrayAImage) (folder : Str) (s : Str)
    (hs : s = [] ∨ s = noneStr) (post : List Str) :
    ∀ (pre : List Str) (canvas : Image) (acc : List Str),
      stackAux fetch toGray folder canvas acc (pre ++ s :: post)
        = stackAux fetch toGray folder canvas acc (pre ++ post) := by
  intro pre
  induction pre with
  | nil =>
    intro canvas acc
    have hstep : stackStep fetch toGray folder canvas s = some (canvas, none) := by
      simp only [stackStep, if_pos hs]
    simp only [List.nil_append, stackAux, hstep]
  | cons p pre ih =>
    intro canvas acc
    simp only [List.cons_append, stackAux]
    cases stackStep fetch toGray folder canvas p with
    | none => rfl
    | some cp =>
      obtain ⟨c', po⟩ := cp
      cases po with
      | none => exact ih c' acc
      | some q => exact ih c' (acc ++ [q])

/-- Claim C6, amended: a sentinel spec (`""` or `"none"`) is skipped without
a resolver call or diagnostic by `helper::stack_layers`, and removing it
leaves both the final canvas and the missing-layers output unchanged; in
the `main.rs` compositor the same removal-invariance holds exactly when it
does not flip the `no_layer` flag — a leading `"none"` whose removal
exposes a different head (or empties the list differently) changes the
canvas initialization and hence the output. -/
theorem claimC6_sentinel :
    (∀ (fetch : Str → Option Image) (toGray : Image → GrayAImage)
        (input_image : Image) (path folder : Str) (pre post : List Str)
        (s : Str), (s = [] ∨ s = noneStr) →
      stack_layers fetch toGray input_image path folder (pre ++ s :: post)
        = stack_layers fetch toGray input_image path folder (pre ++ post))
    ∧ (∀ (fetch : Str → Option Image) (rarityOpt : Option Str)
        (item_img : Image) (pre post : List Str) (s : Str),
      (s = [] ∨ s = noneStr) →
      no_layer (pre ++ s :: post) = no_layer (pre ++ post) →
      composeMain fetch rarityOpt item_img (pre ++ s :: post)
        = composeMain fetch rarityOpt item_img (pre ++ post)) := by
  constructor
  · intro fetch toGray input_image path folder pre post s hs
    unfold stack_layers
    rw [stackAux_sentinel_removal fetch toGray folder s hs post pre
      input_image []]
  · intro fetch rarityOpt item_img pre post s hs hn
    simp only [composeMain, hn]
    congr 1
    unfold drawLayersMain
    rw [List.foldl_append, List.foldl_append, List.foldl_cons, if_pos hs]

/-- Witness for C6: a mid-list `""` sentinel is removable in the stacker,
and in the compositor when `no_layer` is unaffected. -/
theorem claimC6_witness :
    stack_layers fetchT toGrayT imgBase (strBytes "P") folderF
      [strBytes "a", [], strBytes "b"]
      = stack_layers fetchT toGrayT imgBase (strBytes "P") folderF
          [strBytes "a", strBytes "b"]
    ∧ composeMain fetchT (some (strBytes "f")) imgBase
        [strBytes "a", noneStr, strBytes "b"]
        = composeMain fetchT (some (strBytes "f")) imgBase
            [strBytes "a", strBytes "b"] :=
  ⟨claimC6_sentinel.1 fetchT toGrayT imgBase (strBytes "P") folderF
      [strBytes "a"] [strBytes "b"] [] (Or.inl rfl),
   claimC6_sentinel.2 fetchT (some (strBytes "f")) imgBase [strBytes "a"]
      [strBytes "b"] noneStr (Or.inr rfl) (by decide)⟩

/-! ### Claim C4 — missing layers: soft-skip and grouped diagnostics -/

/-- `colorize_grayscale_image` panics exactly when `hex_to_rgb` does. -/
theorem colorize_panic_iff (g : GrayAImage) (hex : Str) (t : Nat) :
    colorize_grayscale_image g hex t = ColorizeResult.panic
      ↔ hex_to_rgb hex = HexResult.panic := by
  unfold colorize_grayscale_image
  cases hex_to_rgb hex <;> simp

/-- Classification of a non-panicking stacker step: it either records
exactly the missing path of its spec and leaves the canvas unchanged, or
records nothing. -/
theorem stackStep_shape (fetch : Str → Option Image)
    (toGray : Image → GrayAImage) (folder : Str) (canvas : Image)
    (spec : Str) (hp : stepPanics fetch folder spec = false) :
    (isMissing fetch folder spec = true ∧
      stackStep fetch toGray folder canvas spec
        = some (canvas, some (force_png_path folder (splitFirstHash spec).1)))
    ∨ (isMissing fetch folder spec = false ∧
      ∃ c', stackStep fetch toGray folder canvas spec = some (c', none)) := by
  by_cases hs : spec = [] ∨ spec = noneStr
  · right
    refine ⟨?_, canvas, ?_⟩
    · simp only [isMissing, if_pos hs]
    · simp only [stackStep, if_pos hs]
  · simp only [stepPanics, if_neg hs] at hp
    cases hf : fetch (force_png_path folder (splitFirstHash spec).1) with
    | none =>
      left
      refine ⟨?_, ?_⟩
      · simp only [isMissing, if_neg hs, hf, Option.isNone_none]
      · simp only [stackStep, if_neg hs, hf]
    | some img =>
      right
      rw [hf] at hp
      dsimp only at hp
      refine ⟨by simp only [isMissing, if_neg hs, hf, Option.isNone_some], ?_⟩
      simp only [stackStep, if_neg hs, hf]
      cases hx : (splitFirstHash spec).2 with
      | none => exact ⟨overlayImg canvas img, rfl⟩
      | some hex =>
        rw [hx] at hp
        dsimp only at hp
        cases hc : colorize_grayscale_image (toGray img) hex 37 with
        | panic =>
          rw [colorize_panic_iff (toGray img) hex 37] at hc
          rw [hc] at hp
          cases hp
        | err e => exact ⟨overlayImg canvas img, by dsimp only; rw [hc]⟩
        | ok colored => exact ⟨overlayImg canvas colored, by dsimp only; rw [hc]⟩

/-- Characterization of the stacker loop without panics: the accumulated
missing paths are exactly `missingPathsOf`, and the final canvas equals the
canvas obtained from the sublist of non-missing specs. -/
theorem stackAux_chars (fetch : Str → Option Image)
    (toGray : Image → GrayAImage) (folder : Str) :
    ∀ (layers : List Str),
      (∀ s ∈ layers, stepPanics fetch folder s = false) →
      ∀ (canvas : Image) (acc : List Str),
        ∃ c, stackAux fetch toGray folder canvas acc layers
            = some (c, acc ++ missingPathsOf fetch folder layers)
          ∧ stackAux fetch toGray folder canvas []
              (layers.filter (fun s => !isMissing fetch folder s))
            = some (c, []) := by
  intro layers
  induction layers with
  | nil =>
    intro _ canvas acc
    exact ⟨canvas, by simp [stackAux, missingPathsOf], by simp [stackAux]⟩
  | cons spec rest ih =>
    intro hnp canvas acc
    have hp := hnp spec (by simp)
    have hrest : ∀ s ∈ rest, stepPanics fetch folder s = false :=
      fun s hs => hnp s (by simp [hs])
    rcases stackStep_shape fetch toGray folder canvas spec hp with
      ⟨hm, hstep⟩ | ⟨hm, c', hstep⟩
    · obtain ⟨c, h1, h2⟩ := ih hrest canvas
        (acc ++ [force_png_path folder (splitFirstHash spec).1])
      refine ⟨c, ?_, ?_⟩
      · simp only [stackAux, hstep]
        rw [h1]
        simp [missingPathsOf, List.filter_cons, hm, List.append_assoc]
      · simp only [List.filter_cons, hm, Bool.not_true]
        simpa using h2
    · obtain ⟨c, h1, h2⟩ := ih hrest c' acc
      refine ⟨c, ?_, ?_⟩
      · simp only [stackAux, hstep]
        rw [h1]
        simp [missingPathsOf, List.filter_cons, hm]
      · simp only [List.filter_cons, hm, Bool.not_false, stackAux, hstep]
        exact h2

/-- Claim C4: for every layer list processed without a tint panic, each
spec whose file cannot be opened is recorded and stacking continues — the
final canvas equals the canvas of the non-missing sublist — and the
returned diagnostic groups all missing paths of the task into at most one
entry under the asset's image path; it is empty exactly when every
non-sentinel layer resolved. -/
theorem claimC4_missing (fetch : Str → Option Image)
    (toGray : Image → GrayAImage) (input_image : Image) (path folder : Str)
    (layers : List Str)
    (hnp : ∀ s ∈ layers, stepPanics fetch folder s = false) :
    stack_layers fetch toGray input_image path folder layers
      = Option.map
          (fun c => (c,
            if missingPathsOf fetch folder layers = [] then []
            else [groupEntry path (missingPathsOf fetch folder layers)]))
          (Option.map Prod.fst
            (stack_layers fetch toGray input_image path folder
              (layers.filter (fun s => !isMissing fetch folder s))))
    ∧ (missingPathsOf fetch folder layers = []
        ↔ ∀ s ∈ layers, isMissing fetch folder s = false)
    ∧ (if missingPathsOf fetch folder layers = [] then ([] : List Str)
        else [groupEntry path (missingPathsOf fetch folder layers)]).length ≤ 1 := by
  obtain ⟨c, h1, h2⟩ :=
    stackAux_chars fetch toGray folder layers hnp input_image []
  refine ⟨?_, ?_, ?_⟩
  · unfold stack_layers
    rw [h1, h2]
    simp
  · simp [missingPathsOf, List.filter_eq_nil_iff]
  · split <;> simp

/-- Witness for C4: with an oracle resolving only layer `a`, the emptiness
criterion holds concretely. -/
theorem claimC4_witness :
    missingPathsOf fetchAB folderF [strBytes "a", strBytes "b"] = []
      ↔ ∀ s ∈ [strBytes "a", strBytes "b"], isMissing fetchAB folderF s = false :=
  (claimC4_missing fetchAB toGrayT imgBase (strBytes "P") folderF
    [strBytes "a", strBytes "b"] (by decide)).2.1

/-! ### Claims C5 and C10 — hard skip of an asset -/

/-- Evaluation of one task iteration when the base image fails to open. -/
theorem processTask_none (openImg : Str → Option Image) (t : AssetTask)
    (h : openImg (force_png_path t.packFolder t.filename) = none) :
    processTask openImg t
      = { dirsCreated := [pathParent (outputPathOf t.packFolder t.filename)],
          skipped := [t.filename], saved := none } := by
  unfold processTask
  rw [h]

/-- The batch loop distributes over list append. -/
theorem runTasks_append (openImg : Str → Option Image)
    (ts1 ts2 : List AssetTask) :
    runTasks openImg (ts1 ++ ts2)
      = ((runTasks openImg ts1).1 ++ (runTasks openImg ts2).1,
         (runTasks openImg ts1).2 ++ (runTasks openImg ts2).2) := by
  induction ts1 with
  | nil => simp [runTasks]
  | cons t ts ih => simp [runTasks, ih, List.append_assoc]

/-- Claim C5: when an asset's base image cannot be opened, exactly its
identifier is pushed onto the skipped-assets diagnostic, no output is
produced for it, and the surrounding batch processes the remaining tasks
exactly as it would without the failing one. -/
theorem claimC5_hard_skip (openImg : Str → Option Image) (t : AssetTask)
    (pre post : List AssetTask)
    (h : openImg (force_png_path t.packFolder t.filename) = none) :
    (processTask openImg t).skipped = [t.filename]
    ∧ (processTask openImg t).saved = none
    ∧ (runTasks openImg (pre ++ t :: post)).1
        = (runTasks openImg pre).1 ++ t.filename :: (runTasks openImg post).1
    ∧ (runTasks openImg (pre ++ t :: post)).2
        = (runTasks openImg pre).2 ++ (runTasks openImg post).2 := by
  have hp := processTask_none openImg t h
  refine ⟨by rw [hp], by rw [hp], ?_, ?_⟩
  · rw [runTasks_append]
    simp [runTasks, hp]
  · rw [runTasks_append]
    simp [runTasks, hp]

/-- Concrete asset task used by the C5/C10 witnesses. -/
def taskW : AssetTask :=
  { rarityOpt := none, packFolder := strBytes "SourcePack/Items",
    filename := strBytes "sword", layers := [] }

/-- Witness for C5 at a concrete task whose base image never opens. -/
theorem claimC5_witness :
    (processTask openNone taskW).skipped = [strBytes "sword"]
    ∧ (processTask openNone taskW).saved = none :=
  ⟨(claimC5_hard_skip openNone taskW [] [] rfl).1,
   (claimC5_hard_skip openNone taskW [] [] rfl).2.1⟩

/-- Claim C10: the output parent directory is created before the base image
is opened, so a hard-skipped asset still leaves its output directory
created — the same directory as on the success path — while producing no
output image. -/
theorem claimC10_dirs (openImg : Str → Option Image) (t : AssetTask)
    (h : openImg (force_png_path t.packFolder t.filename) = none) :
    (processTask openImg t).saved = none
    ∧ (processTask openImg t).dirsCreated
        = [pathParent (outputPathOf t.packFolder t.filename)]
    ∧ (processTask openImg t).dirsCreated ≠ []
    ∧ ∀ g : Str → Option Image,
        (processTask g t).dirsCreated
          = [pathParent (outputPathOf t.packFolder t.filename)] := by
  have hp := processTask_none openImg t h
  refine ⟨by rw [hp], by rw [hp], by rw [hp]; simp, ?_⟩
  intro g
  unfold processTask
  cases g (force_png_path t.packFolder t.filename) <;> rfl

/-- Witness for C10: the hard-skipped concrete task has created
`Output_Pack/Items` and saved nothing. -/
theorem claimC10_witness :
    (processTask openNone taskW).dirsCreated = [strBytes "Output_Pack/Items"]
    ∧ (processTask openNone taskW).saved = none :=
  ⟨(claimC10_dirs openNone taskW rfl).2.1,
   (claimC10_dirs openNone taskW rfl).1⟩

/-! ### Claim C9 — diagnostics are interleaving-invariant (spec-modelled) -/

/-- Consuming the head of the `k`-th piece permutes the flattening by one
front insertion. -/
theorem flatten_set_cons (l : List (List Str)) (k : Nat) (e : Str)
    (rest : List Str) (h : l.get? k = some (e :: rest)) :
    List.Perm l.flatten (e :: (l.set k rest).flatten) := by
  induction l generalizing k with
  | nil => cases h
  | cons x t ih =>
    cases k with
    | zero =>
      rw [List.get?_cons_zero] at h
      cases h
      exact List.Perm.refl _
    | succ k =>
      rw [List.get?_cons_succ] at h
      have h1 : List.Perm (x :: t).flatten
          (x ++ e :: (t.set k rest).flatten) := by
        simpa [List.flatten_cons] using (ih k h).append_left x
      exact h1.trans List.perm_middle

/-- Running any schedule preserves the multiset of entries: the appended
log plus what remains is a permutation of the initial log plus all
contributions. -/
theorem runSched_perm (sch : List Nat) :
    ∀ (rem : List (List Str)) (log : List Str),
      List.Perm
        ((runSched rem log sch).2 ++ (runSched rem log sch).1.flatten)
        (log ++ rem.flatten) := by
  induction sch with
  | nil => intro rem log; exact List.Perm.refl _
  | cons k sch ih =>
    intro rem log
    simp only [runSched]
    rcases hg : rem.get? k with _ | ⟨_ | ⟨e, rest⟩⟩
    · simp only [schedStep, hg]
      exact ih rem log
    · simp only [schedStep, hg]
      exact ih rem log
    · simp only [schedStep, hg]
      refine (ih (rem.set k rest) (log ++ [e])).trans ?_
      rw [List.append_assoc]
      exact List.Perm.append_left log (flatten_set_cons rem k e rest hg).symm

/-- Modelled from the spec: the per-task skipped-asset contributions of a
batch, one list per task in task order. -/
def taskSkippedPieces (openImg : Str → Option Image)
    (ts : List AssetTask) : List (List Str) :=
  ts.map (fun t => (processTask openImg t).skipped)

/-- Modelled from the spec: the per-task missing-layer contributions of a
batch. -/
def taskMissingPieces (openImg : Str → Option Image)
    (toGray : Image → GrayAImage) (ts : List AssetTask) : List (List Str) :=
  ts.map (fun t => taskMissing openImg toGray t)

/-- The sequential batch loop's skipped diagnostic is exactly the flattened
per-task contributions. -/
theorem runTasks_skipped_flatten (openImg : Str → Option Image)
    (ts : List AssetTask) :
    (runTasks openImg ts).1 = (taskSkippedPieces openImg ts).flatten := by
  induction ts with
  | nil => rfl
  | cons t ts ih => simp [runTasks, taskSkippedPieces, ih]

/-- Claim C9 (spec-modelled: the source's orchestrator is a single-threaded
loop; the concurrent worker pool of spec §5 is modelled as an arbitrary
complete interleaving of per-entry atomic appends): for every complete
schedule, the skipped-assets log is a permutation of — same multiset as —
the sequential batch loop's log, and likewise for the missing-layers
contributions; no append is lost. -/
theorem claimC9_interleaving (openImg : Str → Option Image)
    (toGray : Image → GrayAImage) (ts : List AssetTask) :
    (∀ sch : List Nat,
      schedComplete (taskSkippedPieces openImg ts) sch = true →
      List.Perm (runSched (taskSkippedPieces openImg ts) [] sch).2
        (runTasks openImg ts).1)
    ∧ (∀ sch : List Nat,
      schedComplete (taskMissingPieces openImg toGray ts) sch = true →
      List.Perm (runSched (taskMissingPieces openImg toGray ts) [] sch).2
        (taskMissingPieces openImg toGray ts).flatten) := by
  have key : ∀ (pieces : List (List Str)) (sch : List Nat),
      schedComplete pieces sch = true →
      List.Perm (runSched pieces [] sch).2 pieces.flatten := by
    intro pieces sch hc
    have h := runSched_perm sch pieces []
    have hrem : (runSched pieces [] sch).1.flatten = [] := by
      unfold schedComplete at hc
      rw [List.all_eq_true] at hc
      rw [List.flatten_eq_nil_iff]
      intro l hl
      simpa using hc l hl
    rw [hrem, List.append_nil, List.nil_append] at h
    exact h
  refine ⟨fun sch hc => ?_, fun sch hc => key _ sch hc⟩
  have h := key _ sch hc
  rwa [← runTasks_skipped_flatten openImg ts] at h

/-- A second concrete asset task for the C9 witness. -/
def taskW2 : AssetTask :=
  { rarityOpt := none, packFolder := strBytes "SourcePack/Items",
    filename := strBytes "axe", layers := [] }

/-- Witness for C9: two hard-skipped tasks run under the reversed schedule
give the same skipped multiset as the sequential loop. -/
theorem claimC9_witness :
    List.Perm
      (runSched (taskSkippedPieces openNone [taskW, taskW2]) [] [1, 0]).2
      (runTasks openNone [taskW, taskW2]).1 :=
  (claimC9_interleaving openNone toGrayT [taskW, taskW2]).1 [1, 0] (by decide)
